import Mathlib

/-!
Shallow embedding of `src/ogr/ogrfeature.cpp` (the `OGRFeature` class of the
1999-era OGR simple-features implementation) together with theorems checking
the natural-language specification against it.

Modelling conventions:
- C `double` is modelled as `ℚ` (the program only stores, copies, parses and
  truncates real values; no claim depends on binary floating-point rounding).
- C `int` and `long` are modelled as `Int`; no claim exercises overflow.
- Pointer identity of heap objects (features, geometries, the shared
  `OGRFeatureDefn`) is modelled by a `Nat` reference field (`addr` / `ref`):
  two distinct live C++ objects have distinct addresses, and fresh addresses
  for allocations are passed in explicitly.
- A C crash (dereference of a null pointer) is modelled as `Option.none`.
- The nullable owned string of a field slot is `Option String`; the C union
  `OGRField` is modelled as a record holding all three representations, since
  the code only ever reads the representation selected by the schema's kind.
-/

namespace GDAL

/-- Whitespace recognised by C `isspace`, skipped by the C library's
`atoi`/`atof` before the number. -/
def isSpaceChar (c : Char) : Bool :=
  c = ' ' || c = '\t' || c = '\n' || c = '\u000b' || c = '\u000c' || c = '\r'

/-- Drop the leading run of whitespace characters. -/
def skipSpaces : List Char → List Char
  | [] => []
  | c :: rest => if isSpaceChar c then skipSpaces rest else c :: rest

/-- Longest prefix of decimal digits, paired with the remainder. -/
def leadingDigits : List Char → List Char × List Char
  | [] => ([], [])
  | c :: rest =>
    if c.isDigit then
      let p := leadingDigits rest
      (c :: p.1, p.2)
    else ([], c :: rest)

/-- Value of a list of decimal digits, most significant first. -/
def digitsToNat (ds : List Char) : Nat :=
  ds.foldl (fun a c => 10 * a + (c.toNat - 48)) 0

/-- Strip one optional leading sign, returning the sign as a multiplier. -/
def splitSign : List Char → Int × List Char
  | '-' :: rest => (-1, rest)
  | '+' :: rest => (1, rest)
  | cs => (1, cs)

/-- Modelled C `atoi`: skip whitespace, read one optional sign and the
longest prefix of decimal digits; no digits parse to 0. -/
def atoi (s : String) : Int :=
  let p := splitSign (skipSpaces s.data)
  p.1 * (digitsToNat (leadingDigits p.2).1 : Int)

/-- Magnitude part of `atof`: decimal digits with one optional fractional
part after a decimal point. -/
def atofMag (cs : List Char) : ℚ :=
  let ip := leadingDigits cs
  let intPart : ℚ := (digitsToNat ip.1 : ℚ)
  match ip.2 with
  | c :: rest2 =>
    if c = '.' then
      let fp := leadingDigits rest2
      intPart + (digitsToNat fp.1 : ℚ) / ((10 : ℚ) ^ fp.1.length)
    else intPart
  | [] => intPart

/-- Modelled C `atof`: skip whitespace, read one optional sign and a decimal
number with optional fractional part (exponent notation is not exercised by
any claim and is not modelled); no parsable prefix parses to 0. -/
def atof (s : String) : ℚ :=
  let p := splitSign (skipSpaces s.data)
  (p.1 : ℚ) * atofMag p.2

/-- Modelled C `sprintf` with format `%d`: decimal rendering of an int. -/
def sprintfD (n : Int) : String := toString n

/-- Modelled C `sprintf` with format `%g`: general rendering of a double.
No verified claim observes the exact shape of this string; it is modelled as
the rendering of the exact rational value. -/
def sprintfG (q : ℚ) : String := toString q

/-- C cast `(int)` of a double truncates toward zero: floor for nonnegative
values, ceiling for negative ones. -/
def truncToInt (q : ℚ) : Int := if 0 ≤ q then ⌊q⌋ else ⌈q⌉

/-- Field kinds. The accessors distinguish only `OFTInteger`, `OFTReal` and
`OFTString`; every other declared kind (list types, wide strings, reserved
extensions) takes the same default branch in every operation and is collapsed
into `OFTOther`. -/
inductive OGRFieldType where
  | OFTInteger
  | OFTReal
  | OFTString
  | OFTOther
  deriving DecidableEq

/-- Field descriptor of the external schema: only the declared kind is
consulted by the modelled operations. -/
structure OGRFieldDefn where
  fieldType : OGRFieldType
  deriving DecidableEq

/-- The shared, reference-counted feature definition (schema). `ref` models
the C++ object's address, so `ref` equality is pointer equality. -/
structure OGRFeatureDefn where
  ref : Nat
  fieldDefns : List OGRFieldDefn
  deriving DecidableEq

/-- The `OGRField` union. The code reads and writes only the representation
selected by the schema's declared kind at the same index, so the union is
modelled as a record of the three representations; `String := none` models a
null string pointer (unset). -/
structure OGRField where
  Integer : Int
  Real : ℚ
  String : Option String
  deriving DecidableEq

instance : Inhabited OGRField := ⟨⟨0, 0, none⟩⟩

/-- Modelled from the spec: the external Shape collaborator (`OGRGeometry`,
whose source is not part of this repository snapshot). `ref` models the
object's address, `gval` its geometric content. -/
structure OGRGeometry where
  ref : Nat
  gval : Int
  deriving DecidableEq

/-- Modelled from the spec: the Shape collaborator's `clone` allocates a new
object (fresh address) with the same geometric content. -/
def OGRGeometry.clone (g : OGRGeometry) (freshRef : Nat) : OGRGeometry :=
  ⟨freshRef, g.gval⟩

/-- Modelled from the spec: the Shape collaborator's equality predicate,
structural on the geometric content; a null (absent) argument is unequal. -/
def OGRGeometry.Equal (g : OGRGeometry) (other : Option OGRGeometry) : Bool :=
  match other with
  | some h => g.gval == h.gval
  | none => false

/-- The reserved null feature id sentinel (`OGRNullFID`, -1). -/
def OGRNullFID : Int := -1

/-- The feature: schema reference, feature id, optional owned geometry, and
the field slot array. `addr` models the object's address. -/
structure OGRFeature where
  addr : Nat
  poDefn : OGRFeatureDefn
  nFID : Int
  poGeometry : Option OGRGeometry
  pauFields : List OGRField
  deriving DecidableEq

/-- Constructor `OGRFeature::OGRFeature(OGRFeatureDefn*)`: references the definition,
sets `nFID = OGRNullFID`, no geometry, and `CPLCalloc`s the slot array —
every representation zero, every string pointer null. -/
def OGRFeature.new (addr : Nat) (poDefnIn : OGRFeatureDefn) : OGRFeature :=
  { addr := addr
    poDefn := poDefnIn
    nFID := OGRNullFID
    poGeometry := none
    pauFields := List.replicate poDefnIn.fieldDefns.length ⟨0, 0, none⟩ }

/-- Overwrite slot `i` of the array through an update of its current value
(models an in-place assignment to one member of `pauFields[i]`). -/
def setSlot (fs : List OGRField) (i : Nat) (g : OGRField → OGRField) :
    List OGRField :=
  fs.set i (g (fs.getD i default))

/-- Replace the whole slot array (models the mutation of `pauFields`). -/
def OGRFeature.withFields (f : OGRFeature) (fs : List OGRField) : OGRFeature :=
  { f with pauFields := fs }

/-- Embeds `OGRFeature::GetFieldAsInteger`. A valid index is a caller contract
(the C code asserts the descriptor is non-null); out of range the model
returns 0, a branch no theorem relies on. -/
def OGRFeature.GetFieldAsInteger (f : OGRFeature) (iField : Nat) : Int :=
  match f.poDefn.fieldDefns[iField]?, f.pauFields[iField]? with
  | some fd, some slot =>
    match fd.fieldType with
    | .OFTInteger => slot.Integer
    | .OFTReal => truncToInt slot.Real
    | .OFTString =>
      match slot.String with
      | none => 0
      | some s => atoi s
    | .OFTOther => 0
  | _, _ => 0

/-- Embeds `OGRFeature::GetFieldAsDouble`. -/
def OGRFeature.GetFieldAsDouble (f : OGRFeature) (iField : Nat) : ℚ :=
  match f.poDefn.fieldDefns[iField]?, f.pauFields[iField]? with
  | some fd, some slot =>
    match fd.fieldType with
    | .OFTReal => slot.Real
    | .OFTInteger => (slot.Integer : ℚ)
    | .OFTString =>
      match slot.String with
      | none => 0
      | some s => atof s
    | .OFTOther => 0
  | _, _ => 0

/-- Embeds `OGRFeature::GetFieldAsString`. The C function formats numeric kinds
into a static scratch buffer; the model returns the formatted value (the
aliasing lifetime hazard of the shared buffer is not representable and not
claimed). -/
def OGRFeature.GetFieldAsString (f : OGRFeature) (iField : Nat) : String :=
  match f.poDefn.fieldDefns[iField]?, f.pauFields[iField]? with
  | some fd, some slot =>
    match fd.fieldType with
    | .OFTString =>
      match slot.String with
      | none => ""
      | some s => s
    | .OFTInteger => sprintfD slot.Integer
    | .OFTReal => sprintfG slot.Real
    | .OFTOther => ""
  | _, _ => ""

/-- Embeds `OGRFeature::SetField(int, int)`. -/
def OGRFeature.SetFieldInteger (f : OGRFeature) (iField : Nat) (nValue : Int) :
    OGRFeature :=
  match f.poDefn.fieldDefns[iField]? with
  | none => f
  | some fd =>
    match fd.fieldType with
    | .OFTInteger =>
      f.withFields (setSlot f.pauFields iField
          (fun s => { s with Integer := nValue }))
    | .OFTReal =>
      f.withFields (setSlot f.pauFields iField
          (fun s => { s with Real := (nValue : ℚ) }))
    | .OFTString =>
      f.withFields (setSlot f.pauFields iField
          (fun s => { s with String := some (sprintfD nValue) }))
    | .OFTOther => f

/-- Embeds `OGRFeature::SetField(int, double)`. -/
def OGRFeature.SetFieldDouble (f : OGRFeature) (iField : Nat) (dfValue : ℚ) :
    OGRFeature :=
  match f.poDefn.fieldDefns[iField]? with
  | none => f
  | some fd =>
    match fd.fieldType with
    | .OFTReal =>
      f.withFields (setSlot f.pauFields iField
          (fun s => { s with Real := dfValue }))
    | .OFTInteger =>
      f.withFields (setSlot f.pauFields iField
          (fun s => { s with Integer := truncToInt dfValue }))
    | .OFTString =>
      f.withFields (setSlot f.pauFields iField
          (fun s => { s with String := some (sprintfG dfValue) }))
    | .OFTOther => f

/-- Embeds `OGRFeature::SetField(int, const char*)`. The C string argument is
non-null (a `String`); a copy is stored for string kinds. -/
def OGRFeature.SetFieldString (f : OGRFeature) (iField : Nat)
    (pszValue : String) : OGRFeature :=
  match f.poDefn.fieldDefns[iField]? with
  | none => f
  | some fd =>
    match fd.fieldType with
    | .OFTString =>
      f.withFields (setSlot f.pauFields iField
          (fun s => { s with String := some pszValue }))
    | .OFTInteger =>
      f.withFields (setSlot f.pauFields iField
          (fun s => { s with Integer := atoi pszValue }))
    | .OFTReal =>
      f.withFields (setSlot f.pauFields iField
          (fun s => { s with Real := atof pszValue }))
    | .OFTOther => f

/-- Embeds `OGRFeature::SetField(int, OGRField*)`: copies the representation named
by the destination's declared kind out of the source slot (the string copy
via `CPLStrdup` duplicates the possibly-null owned string). -/
def OGRFeature.SetFieldRaw (f : OGRFeature) (iField : Nat)
    (puValue : OGRField) : OGRFeature :=
  match f.poDefn.fieldDefns[iField]? with
  | none => f
  | some fd =>
    match fd.fieldType with
    | .OFTInteger =>
      f.withFields (setSlot f.pauFields iField
          (fun s => { s with Integer := puValue.Integer }))
    | .OFTReal =>
      f.withFields (setSlot f.pauFields iField
          (fun s => { s with Real := puValue.Real }))
    | .OFTString =>
      f.withFields (setSlot f.pauFields iField
          (fun s => { s with String := puValue.String }))
    | .OFTOther => f

/-- Embeds `OGRFeature::SetGeometryDirectly`: takes ownership of the passed
geometry (possibly null) after deleting any current one. -/
def OGRFeature.SetGeometryDirectly (f : OGRFeature)
    (poGeomIn : Option OGRGeometry) : OGRFeature :=
  { f with poGeometry := poGeomIn }

/-- Embeds `OGRFeature::SetGeometry`: deletes any current geometry and stores
`poGeomIn->clone()`. The clone call dereferences `poGeomIn`, so a null
argument crashes — modelled as `none`. `freshRef` is the address of the
clone allocation. -/
def OGRFeature.SetGeometry (f : OGRFeature) (poGeomIn : Option OGRGeometry)
    (freshRef : Nat) : Option OGRFeature :=
  match poGeomIn with
  | none => none
  | some g => some { f with poGeometry := some (g.clone freshRef) }

/-- The field-copying loop of `OGRFeature::Clone`:
`for i in [0, n): dst.SetField(i, src.pauFields + i)`. -/
def OGRFeature.copyFieldsFrom (dst src : OGRFeature) : Nat → OGRFeature
  | 0 => dst
  | n + 1 =>
    (OGRFeature.copyFieldsFrom dst src n).SetFieldRaw n
      (src.pauFields.getD n default)

/-- Embeds `OGRFeature::Clone`: construct a fresh feature on the same definition,
route the (possibly null) geometry through `SetGeometry`, then copy every
field slot. `freshAddr` and `freshShapeRef` are the addresses of the two
allocations. -/
def OGRFeature.Clone (f : OGRFeature) (freshAddr freshShapeRef : Nat) :
    Option OGRFeature :=
  match (OGRFeature.new freshAddr f.poDefn).SetGeometry f.poGeometry
      freshShapeRef with
  | none => none
  | some poNew => some (poNew.copyFieldsFrom f f.poDefn.fieldDefns.length)

/-- Embeds `OGRFeature::SetFID`: plain assignment (always `OGRERR_NONE`). -/
def OGRFeature.SetFID (f : OGRFeature) (nFIDIn : Int) : OGRFeature :=
  { f with nFID := nFIDIn }

/-- Embeds `OGRFeature::Equal`: pointer-identity short circuit, then feature id,
then definition pointer identity, then — only when this feature's geometry
is present — geometry equality against the other's geometry. Field values
are not compared (`notdef: add testing of attributes at a later date`). -/
def OGRFeature.Equal (self poFeature : OGRFeature) : Bool :=
  if self.addr == poFeature.addr then true
  else if self.nFID != poFeature.nFID then false
  else if self.poDefn.ref != poFeature.poDefn.ref then false
  else
    match self.poGeometry with
    | none => true
    | some g => g.Equal poFeature.poGeometry

/-- Structural well-formedness maintained by construction: the slot array
has exactly the schema's field count. -/
def OGRFeature.WF (f : OGRFeature) : Prop :=
  f.pauFields.length = f.poDefn.fieldDefns.length

/-- Equality of the representation selected by the descriptor's kind — the
observable "field value" of a slot under that descriptor. -/
def slotValueEq (fd : OGRFieldDefn) (s t : OGRField) : Bool :=
  match fd.fieldType with
  | .OFTInteger => s.Integer == t.Integer
  | .OFTReal => s.Real == t.Real
  | .OFTString => s.String == t.String
  | .OFTOther => true

/-- True when a list is empty or starts with a non-digit. -/
def headNotDigit : List Char → Bool
  | [] => true
  | c :: _ => !c.isDigit

/-- A string with no parsable numeric prefix: after optional whitespace and
one optional sign there is no leading digit, nor a decimal point followed by
a digit — both `atoi` and `atof` parse such a string to zero. -/
def isNonNumeric (s : String) : Bool :=
  match (splitSign (skipSpaces s.data)).2 with
  | [] => true
  | c :: rest => !c.isDigit && (c != '.' || headNotDigit rest)

/-- The modifier `g` mutates only index `i` of the slot array. -/
theorem setSlot_getElem?_ne (fs : List OGRField) (i j : Nat)
    (g : OGRField → OGRField) (h : i ≠ j) :
    (setSlot fs i g)[j]? = fs[j]? := by
  simp [setSlot, List.getElem?_set_ne h]

/-- Index `i` of the modified array holds the update of its old value. -/
theorem setSlot_getElem?_self (fs : List OGRField) (i : Nat)
    (g : OGRField → OGRField) (slot : OGRField) (hs : fs[i]? = some slot) :
    (setSlot fs i g)[i]? = some (g slot) := by
  have hi : i < fs.length := by
    by_contra hlt
    rw [List.getElem?_eq_none (by omega)] at hs
    exact Option.noConfusion hs
  simp [setSlot, hs, List.getElem?_set_self hi]

/-- Updating a slot preserves the array length. -/
theorem setSlot_length (fs : List OGRField) (i : Nat)
    (g : OGRField → OGRField) : (setSlot fs i g).length = fs.length := by
  simp [setSlot]

/-- An in-range index yields a slot. -/
theorem getElem?_isSome_of_lt {α : Type} (l : List α) (i : Nat)
    (h : i < l.length) : ∃ a, l[i]? = some a :=
  ⟨l[i], List.getElem?_eq_getElem h⟩

/-- A yielded slot means the index was in range. -/
theorem lt_of_getElem?_eq_some {α : Type} (l : List α) (i : Nat) (a : α)
    (h : l[i]? = some a) : i < l.length := by
  by_contra hlt
  rw [List.getElem?_eq_none (by omega)] at h
  exact Option.noConfusion h

/-- Evaluation of `SetField(int,int)` once the descriptor is known. -/
theorem SetFieldInteger_eval (f : OGRFeature) (i : Nat) (fd : OGRFieldDefn)
    (hfd : f.poDefn.fieldDefns[i]? = some fd) (n : Int) :
    f.SetFieldInteger i n =
      match fd.fieldType with
      | .OFTInteger =>
        f.withFields (setSlot f.pauFields i fun s => { s with Integer := n })
      | .OFTReal =>
        f.withFields (setSlot f.pauFields i fun s => { s with Real := (n : ℚ) })
      | .OFTString =>
        f.withFields
          (setSlot f.pauFields i fun s => { s with String := some (sprintfD n) })
      | .OFTOther => f := by
  unfold OGRFeature.SetFieldInteger
  rw [hfd]

/-- Evaluation of `SetField(int,double)` once the descriptor is known. -/
theorem SetFieldDouble_eval (f : OGRFeature) (i : Nat) (fd : OGRFieldDefn)
    (hfd : f.poDefn.fieldDefns[i]? = some fd) (q : ℚ) :
    f.SetFieldDouble i q =
      match fd.fieldType with
      | .OFTReal =>
        f.withFields (setSlot f.pauFields i fun s => { s with Real := q })
      | .OFTInteger =>
        f.withFields
          (setSlot f.pauFields i fun s => { s with Integer := truncToInt q })
      | .OFTString =>
        f.withFields
          (setSlot f.pauFields i fun s => { s with String := some (sprintfG q) })
      | .OFTOther => f := by
  unfold OGRFeature.SetFieldDouble
  rw [hfd]

/-- Evaluation of `SetField(int,const char*)` once the descriptor is known. -/
theorem SetFieldString_eval (f : OGRFeature) (i : Nat) (fd : OGRFieldDefn)
    (hfd : f.poDefn.fieldDefns[i]? = some fd) (sv : String) :
    f.SetFieldString i sv =
      match fd.fieldType with
      | .OFTString =>
        f.withFields (setSlot f.pauFields i fun s => { s with String := some sv })
      | .OFTInteger =>
        f.withFields (setSlot f.pauFields i fun s => { s with Integer := atoi sv })
      | .OFTReal =>
        f.withFields (setSlot f.pauFields i fun s => { s with Real := atof sv })
      | .OFTOther => f := by
  unfold OGRFeature.SetFieldString
  rw [hfd]

/-- Evaluation of `SetField(int,OGRField*)` once the descriptor is known. -/
theorem SetFieldRaw_eval (f : OGRFeature) (i : Nat) (fd : OGRFieldDefn)
    (hfd : f.poDefn.fieldDefns[i]? = some fd) (v : OGRField) :
    f.SetFieldRaw i v =
      match fd.fieldType with
      | .OFTInteger =>
        f.withFields
          (setSlot f.pauFields i fun s => { s with Integer := v.Integer })
      | .OFTReal =>
        f.withFields (setSlot f.pauFields i fun s => { s with Real := v.Real })
      | .OFTString =>
        f.withFields
          (setSlot f.pauFields i fun s => { s with String := v.String })
      | .OFTOther => f := by
  unfold OGRFeature.SetFieldRaw
  rw [hfd]

/-- Evaluation of `GetFieldAsInteger` once descriptor and slot are known. -/
theorem GetFieldAsInteger_eval (f : OGRFeature) (i : Nat) (fd : OGRFieldDefn)
    (slot : OGRField) (hfd : f.poDefn.fieldDefns[i]? = some fd)
    (hs : f.pauFields[i]? = some slot) :
    f.GetFieldAsInteger i =
      match fd.fieldType with
      | .OFTInteger => slot.Integer
      | .OFTReal => truncToInt slot.Real
      | .OFTString =>
        match slot.String with
        | none => 0
        | some s => atoi s
      | .OFTOther => 0 := by
  unfold OGRFeature.GetFieldAsInteger
  rw [hfd, hs]

/-- Evaluation of `GetFieldAsDouble` once descriptor and slot are known. -/
theorem GetFieldAsDouble_eval (f : OGRFeature) (i : Nat) (fd : OGRFieldDefn)
    (slot : OGRField) (hfd : f.poDefn.fieldDefns[i]? = some fd)
    (hs : f.pauFields[i]? = some slot) :
    f.GetFieldAsDouble i =
      match fd.fieldType with
      | .OFTReal => slot.Real
      | .OFTInteger => (slot.Integer : ℚ)
      | .OFTString =>
        match slot.String with
        | none => 0
        | some s => atof s
      | .OFTOther => 0 := by
  unfold OGRFeature.GetFieldAsDouble
  rw [hfd, hs]

/-- Evaluation of `GetFieldAsString` once descriptor and slot are known. -/
theorem GetFieldAsString_eval (f : OGRFeature) (i : Nat) (fd : OGRFieldDefn)
    (slot : OGRField) (hfd : f.poDefn.fieldDefns[i]? = some fd)
    (hs : f.pauFields[i]? = some slot) :
    f.GetFieldAsString i =
      match fd.fieldType with
      | .OFTString =>
        match slot.String with
        | none => ""
        | some s => s
      | .OFTInteger => sprintfD slot.Integer
      | .OFTReal => sprintfG slot.Real
      | .OFTOther => "" := by
  unfold OGRFeature.GetFieldAsString
  rw [hfd, hs]

/-- Reading back slot `i` as integer right after overwriting it. -/
theorem GetFieldAsInteger_set (f : OGRFeature) (i : Nat) (fd : OGRFieldDefn)
    (g : OGRField → OGRField) (slot : OGRField)
    (hfd : f.poDefn.fieldDefns[i]? = some fd)
    (hs : f.pauFields[i]? = some slot) :
    (f.withFields (setSlot f.pauFields i g)).GetFieldAsInteger i =
      match fd.fieldType with
      | .OFTInteger => (g slot).Integer
      | .OFTReal => truncToInt (g slot).Real
      | .OFTString =>
        match (g slot).String with
        | none => 0
        | some s => atoi s
      | .OFTOther => 0 :=
  GetFieldAsInteger_eval (f.withFields (setSlot f.pauFields i g)) i fd (g slot)
    hfd (setSlot_getElem?_self f.pauFields i g slot hs)

/-- Reading back slot `i` as double right after overwriting it. -/
theorem GetFieldAsDouble_set (f : OGRFeature) (i : Nat) (fd : OGRFieldDefn)
    (g : OGRField → OGRField) (slot : OGRField)
    (hfd : f.poDefn.fieldDefns[i]? = some fd)
    (hs : f.pauFields[i]? = some slot) :
    (f.withFields (setSlot f.pauFields i g)).GetFieldAsDouble i =
      match fd.fieldType with
      | .OFTReal => (g slot).Real
      | .OFTInteger => ((g slot).Integer : ℚ)
      | .OFTString =>
        match (g slot).String with
        | none => 0
        | some s => atof s
      | .OFTOther => 0 :=
  GetFieldAsDouble_eval (f.withFields (setSlot f.pauFields i g)) i fd (g slot)
    hfd (setSlot_getElem?_self f.pauFields i g slot hs)

/-- Reading back slot `i` as string right after overwriting it. -/
theorem GetFieldAsString_set (f : OGRFeature) (i : Nat) (fd : OGRFieldDefn)
    (g : OGRField → OGRField) (slot : OGRField)
    (hfd : f.poDefn.fieldDefns[i]? = some fd)
    (hs : f.pauFields[i]? = some slot) :
    (f.withFields (setSlot f.pauFields i g)).GetFieldAsString i =
      match fd.fieldType with
      | .OFTString =>
        match (g slot).String with
        | none => ""
        | some s => s
      | .OFTInteger => sprintfD (g slot).Integer
      | .OFTReal => sprintfG (g slot).Real
      | .OFTOther => "" :=
  GetFieldAsString_eval (f.withFields (setSlot f.pauFields i g)) i fd (g slot)
    hfd (setSlot_getElem?_self f.pauFields i g slot hs)

/-- Lemma: `SetField(int,OGRField*)` leaves every non-slot component and the slot
count unchanged. -/
theorem SetFieldRaw_comp (f : OGRFeature) (i : Nat) (v : OGRField) :
    (f.SetFieldRaw i v).addr = f.addr ∧
    (f.SetFieldRaw i v).poDefn = f.poDefn ∧
    (f.SetFieldRaw i v).nFID = f.nFID ∧
    (f.SetFieldRaw i v).poGeometry = f.poGeometry ∧
    (f.SetFieldRaw i v).pauFields.length = f.pauFields.length := by
  unfold OGRFeature.SetFieldRaw
  cases hfd : f.poDefn.fieldDefns[i]? with
  | none => exact ⟨rfl, rfl, rfl, rfl, rfl⟩
  | some fd =>
    cases hft : fd.fieldType <;>
      simp [hft, OGRFeature.withFields, setSlot_length]

/-- Lemma: `SetField(int,OGRField*)` leaves every other slot unchanged. -/
theorem SetFieldRaw_getElem?_ne (f : OGRFeature) (i j : Nat) (v : OGRField)
    (h : j ≠ i) : (f.SetFieldRaw i v).pauFields[j]? = f.pauFields[j]? := by
  unfold OGRFeature.SetFieldRaw
  cases hfd : f.poDefn.fieldDefns[i]? with
  | none => rfl
  | some fd =>
    cases hft : fd.fieldType <;>
      simp [hft, OGRFeature.withFields, setSlot, List.getElem?_set_ne (Ne.symm h)]

/-- Lemma: `SetField(int,OGRField*)` writes the source's representation for the
destination's declared kind into slot `i`. -/
theorem SetFieldRaw_slot_self (f : OGRFeature) (i : Nat) (v : OGRField)
    (fd : OGRFieldDefn) (hfd : f.poDefn.fieldDefns[i]? = some fd)
    (slot : OGRField) (hs : f.pauFields[i]? = some slot) :
    ∃ s, (f.SetFieldRaw i v).pauFields[i]? = some s ∧
      slotValueEq fd s v = true := by
  rw [SetFieldRaw_eval f i fd hfd v]
  cases hft : fd.fieldType
  case OFTInteger =>
    refine ⟨{ slot with Integer := v.Integer }, ?_, ?_⟩
    · simpa [OGRFeature.withFields] using
        setSlot_getElem?_self f.pauFields i _ slot hs
    · simp [slotValueEq, hft]
  case OFTReal =>
    refine ⟨{ slot with Real := v.Real }, ?_, ?_⟩
    · simpa [OGRFeature.withFields] using
        setSlot_getElem?_self f.pauFields i _ slot hs
    · simp [slotValueEq, hft]
  case OFTString =>
    refine ⟨{ slot with String := v.String }, ?_, ?_⟩
    · simpa [OGRFeature.withFields] using
        setSlot_getElem?_self f.pauFields i _ slot hs
    · simp [slotValueEq, hft]
  case OFTOther =>
    exact ⟨slot, hs, by simp [slotValueEq, hft]⟩

/-- The clone field-copy loop leaves every non-slot component and the slot
count of the destination unchanged. -/
theorem copyFieldsFrom_comp (dst src : OGRFeature) (n : Nat) :
    (dst.copyFieldsFrom src n).addr = dst.addr ∧
    (dst.copyFieldsFrom src n).poDefn = dst.poDefn ∧
    (dst.copyFieldsFrom src n).nFID = dst.nFID ∧
    (dst.copyFieldsFrom src n).poGeometry = dst.poGeometry ∧
    (dst.copyFieldsFrom src n).pauFields.length = dst.pauFields.length := by
  induction n with
  | zero => exact ⟨rfl, rfl, rfl, rfl, rfl⟩
  | succ k ih =>
    have h := SetFieldRaw_comp (dst.copyFieldsFrom src k) k
      (src.pauFields.getD k default)
    simp only [OGRFeature.copyFieldsFrom]
    exact ⟨h.1.trans ih.1, h.2.1.trans ih.2.1, h.2.2.1.trans ih.2.2.1,
      h.2.2.2.1.trans ih.2.2.2.1, h.2.2.2.2.trans ih.2.2.2.2⟩

/-- Slots at or beyond the loop bound are untouched by the copy loop. -/
theorem copyFieldsFrom_slot_ge (dst src : OGRFeature) (n j : Nat)
    (h : n ≤ j) :
    (dst.copyFieldsFrom src n).pauFields[j]? = dst.pauFields[j]? := by
  induction n with
  | zero => rfl
  | succ k ih =>
    simp only [OGRFeature.copyFieldsFrom]
    rw [SetFieldRaw_getElem?_ne _ _ _ _ (by omega)]
    exact ih (by omega)

/-- Every slot below the loop bound ends up value-equal (for its declared
kind) to the source's slot. -/
theorem copyFieldsFrom_slot_lt (dst src : OGRFeature) (n : Nat)
    (hdefn : dst.poDefn = src.poDefn) :
    ∀ j, j < n → j < dst.pauFields.length →
    ∀ fd, src.poDefn.fieldDefns[j]? = some fd →
    ∀ t, src.pauFields[j]? = some t →
    ∃ s, (dst.copyFieldsFrom src n).pauFields[j]? = some s ∧
      slotValueEq fd s t = true := by
  induction n with
  | zero =>
    intro j hj
    omega
  | succ k ih =>
    intro j hj hjd fd hfd t ht
    simp only [OGRFeature.copyFieldsFrom]
    by_cases hcase : j < k
    · obtain ⟨s, hs1, hs2⟩ := ih j hcase hjd fd hfd t ht
      refine ⟨s, ?_, hs2⟩
      rw [SetFieldRaw_getElem?_ne _ _ _ _ (by omega)]
      exact hs1
    · have hjk : j = k := by omega
      subst hjk
      have hcomp := copyFieldsFrom_comp dst src j
      have hfd' : (dst.copyFieldsFrom src j).poDefn.fieldDefns[j]? = some fd := by
        rw [hcomp.2.1, hdefn]
        exact hfd
      have hlen' : j < (dst.copyFieldsFrom src j).pauFields.length := by
        rw [hcomp.2.2.2.2]
        exact hjd
      obtain ⟨u, hu⟩ := getElem?_isSome_of_lt _ _ hlen'
      have hv : src.pauFields.getD j default = t := by simp [ht]
      obtain ⟨s, hs1, hs2⟩ := SetFieldRaw_slot_self (dst.copyFieldsFrom src j) j
        (src.pauFields.getD j default) fd hfd' u hu
      rw [hv] at hs2
      exact ⟨s, hs1, hs2⟩

/-- No leading digit means the digit prefix is empty. -/
theorem leadingDigits_eq_nil (cs : List Char) (h : headNotDigit cs = true) :
    (leadingDigits cs).1 = [] := by
  cases cs with
  | nil => rfl
  | cons c rest =>
    have hcd : c.isDigit = false := by simpa [headNotDigit] using h
    simp [leadingDigits, hcd]

/-- Parsing a non-numeric string with `atoi` gives 0. -/
theorem atoi_eq_zero_of_nonNumeric (s : String) (h : isNonNumeric s = true) :
    atoi s = 0 := by
  unfold isNonNumeric at h
  simp only [atoi]
  cases hc : (splitSign (skipSpaces s.data)).2 with
  | nil => simp [hc, leadingDigits, digitsToNat]
  | cons c rest =>
    rw [hc] at h
    have hcd : c.isDigit = false := by
      have h1 := (Bool.and_eq_true _ _).mp h
      simpa using h1.1
    simp [hc, leadingDigits, hcd, digitsToNat]

/-- Evaluating `atofMag` on a list with no leading digit and no fraction start gives 0. -/
theorem atofMag_eq_zero (c : Char) (rest : List Char)
    (hcd : c.isDigit = false)
    (hdot : c = '.' → headNotDigit rest = true) :
    atofMag (c :: rest) = 0 := by
  simp only [atofMag, leadingDigits, hcd, Bool.false_eq_true, if_false]
  by_cases hd : c = '.'
  · have hfp : (leadingDigits rest).1 = [] := leadingDigits_eq_nil rest (hdot hd)
    simp [hd, hfp, digitsToNat]
  · simp [hd, digitsToNat]

/-- Parsing a non-numeric string with `atof` gives 0. -/
theorem atof_eq_zero_of_nonNumeric (s : String) (h : isNonNumeric s = true) :
    atof s = 0 := by
  unfold isNonNumeric at h
  simp only [atof]
  cases hc : (splitSign (skipSpaces s.data)).2 with
  | nil => simp [hc, atofMag, leadingDigits, digitsToNat]
  | cons c rest =>
    rw [hc] at h
    obtain ⟨h1, h2⟩ := (Bool.and_eq_true _ _).mp h
    have hcd : c.isDigit = false := by simpa using h1
    have hdot : c = '.' → headNotDigit rest = true := by
      intro hceq
      rcases (Bool.or_eq_true _ _).mp h2 with h3 | h3
      · exact absurd hceq (by simpa using h3)
      · exact h3
    simp [hc, atofMag_eq_zero c rest hcd hdot]

/-- Lemma: `SetField(int,int)` leaves every non-slot component unchanged. -/
theorem SetFieldInteger_comp (f : OGRFeature) (i : Nat) (n : Int) :
    (f.SetFieldInteger i n).addr = f.addr ∧
    (f.SetFieldInteger i n).poDefn = f.poDefn ∧
    (f.SetFieldInteger i n).nFID = f.nFID ∧
    (f.SetFieldInteger i n).poGeometry = f.poGeometry := by
  unfold OGRFeature.SetFieldInteger
  cases hfd : f.poDefn.fieldDefns[i]? with
  | none => exact ⟨rfl, rfl, rfl, rfl⟩
  | some fd =>
    cases hft : fd.fieldType <;> simp [hft, OGRFeature.withFields]

/-- Lemma: `SetField(int,int)` leaves every other slot unchanged. -/
theorem SetFieldInteger_getElem?_ne (f : OGRFeature) (i j : Nat) (n : Int)
    (h : j ≠ i) : (f.SetFieldInteger i n).pauFields[j]? = f.pauFields[j]? := by
  unfold OGRFeature.SetFieldInteger
  cases hfd : f.poDefn.fieldDefns[i]? with
  | none => rfl
  | some fd =>
    cases hft : fd.fieldType <;>
      simp [hft, OGRFeature.withFields, setSlot, List.getElem?_set_ne (Ne.symm h)]

/-- Lemma: `SetField(int,double)` leaves every non-slot component unchanged. -/
theorem SetFieldDouble_comp (f : OGRFeature) (i : Nat) (q : ℚ) :
    (f.SetFieldDouble i q).addr = f.addr ∧
    (f.SetFieldDouble i q).poDefn = f.poDefn ∧
    (f.SetFieldDouble i q).nFID = f.nFID ∧
    (f.SetFieldDouble i q).poGeometry = f.poGeometry := by
  unfold OGRFeature.SetFieldDouble
  cases hfd : f.poDefn.fieldDefns[i]? with
  | none => exact ⟨rfl, rfl, rfl, rfl⟩
  | some fd =>
    cases hft : fd.fieldType <;> simp [hft, OGRFeature.withFields]

/-- Lemma: `SetField(int,double)` leaves every other slot unchanged. -/
theorem SetFieldDouble_getElem?_ne (f : OGRFeature) (i j : Nat) (q : ℚ)
    (h : j ≠ i) : (f.SetFieldDouble i q).pauFields[j]? = f.pauFields[j]? := by
  unfold OGRFeature.SetFieldDouble
  cases hfd : f.poDefn.fieldDefns[i]? with
  | none => rfl
  | some fd =>
    cases hft : fd.fieldType <;>
      simp [hft, OGRFeature.withFields, setSlot, List.getElem?_set_ne (Ne.symm h)]

/-- Lemma: `SetField(int,const char*)` leaves every non-slot component unchanged. -/
theorem SetFieldString_comp (f : OGRFeature) (i : Nat) (sv : String) :
    (f.SetFieldString i sv).addr = f.addr ∧
    (f.SetFieldString i sv).poDefn = f.poDefn ∧
    (f.SetFieldString i sv).nFID = f.nFID ∧
    (f.SetFieldString i sv).poGeometry = f.poGeometry := by
  unfold OGRFeature.SetFieldString
  cases hfd : f.poDefn.fieldDefns[i]? with
  | none => exact ⟨rfl, rfl, rfl, rfl⟩
  | some fd =>
    cases hft : fd.fieldType <;> simp [hft, OGRFeature.withFields]

/-- Lemma: `SetField(int,const char*)` leaves every other slot unchanged. -/
theorem SetFieldString_getElem?_ne (f : OGRFeature) (i j : Nat) (sv : String)
    (h : j ≠ i) : (f.SetFieldString i sv).pauFields[j]? = f.pauFields[j]? := by
  unfold OGRFeature.SetFieldString
  cases hfd : f.poDefn.fieldDefns[i]? with
  | none => rfl
  | some fd =>
    cases hft : fd.fieldType <;>
      simp [hft, OGRFeature.withFields, setSlot, List.getElem?_set_ne (Ne.symm h)]

/-- Parsing the decimal string "3.14" with `atof` gives the exact rational 3.14. -/
theorem atof_314 : atof "3.14" = (3.14 : ℚ) := by
  have h3 : atofMag ['3', '.', '1', '4'] =
      (digitsToNat ['3'] : ℚ) +
        (digitsToNat ['1', '4'] : ℚ) / (10 : ℚ) ^ (['1', '4'].length) := rfl
  have hsplit : splitSign (skipSpaces "3.14".data) = (1, ['3', '.', '1', '4']) :=
    rfl
  show ((splitSign (skipSpaces "3.14".data)).1 : ℚ) *
    atofMag (splitSign (skipSpaces "3.14".data)).2 = 3.14
  rw [hsplit]
  rw [show ((1, ['3', '.', '1', '4']) : Int × List Char).1 = 1 from rfl,
    show ((1, ['3', '.', '1', '4']) : Int × List Char).2 = ['3', '.', '1', '4']
    from rfl, h3]
  rw [show digitsToNat ['3'] = 3 from rfl,
    show digitsToNat ['1', '4'] = 14 from rfl,
    show (['1', '4'] : List Char).length = 2 from rfl]
  norm_num

/-- A four-field schema exercising every kind, used for concrete witnesses. -/
def witDefn : OGRFeatureDefn :=
  ⟨7, [⟨.OFTString⟩, ⟨.OFTInteger⟩, ⟨.OFTReal⟩, ⟨.OFTOther⟩]⟩

/-- A record on `witDefn` with an identifier, a shape and set field values. -/
def witFeatA : OGRFeature :=
  ⟨0, witDefn, 100, some ⟨9, 3⟩,
    [⟨0, 0, some "Lot A"⟩, ⟨5, 0, none⟩, ⟨0, 25 / 2, none⟩, ⟨0, 0, none⟩]⟩

/-- A record on `witDefn` with the same identifier as `witFeatA` but no
shape and different field values. -/
def witFeatB : OGRFeature :=
  ⟨1, witDefn, 100, none,
    [⟨0, 0, some "Lot B"⟩, ⟨6, 0, none⟩, ⟨0, 7, none⟩, ⟨0, 0, none⟩]⟩

/-- A record on `witDefn` equal to `witFeatB` except for its address and
field values: same identifier, same schema instance, no shape. -/
def witFeatC : OGRFeature :=
  ⟨2, witDefn, 100, none,
    [⟨0, 0, none⟩, ⟨-4, 0, none⟩, ⟨0, 1 / 3, none⟩, ⟨0, 0, none⟩]⟩

/-- C2: `Equal` ignores field-value differences — two distinct records
(distinct addresses) bound to the same Schema instance, with the same
identifier and both without a shape, compare equal whatever their field
slots hold. -/
theorem Equal_ignores_field_values (a b : OGRFeature)
    (haddr : a.addr ≠ b.addr) (hdefn : a.poDefn = b.poDefn)
    (hfid : a.nFID = b.nFID) (hga : a.poGeometry = none)
    (_hgb : b.poGeometry = none) :
    a.Equal b = true := by
  simp [OGRFeature.Equal, haddr, hfid, hdefn, hga]

/-- Witness for C2: `witFeatB` and `witFeatC` differ in every field value
yet compare equal. -/
theorem Equal_ignores_field_values_witness :
    OGRFeature.Equal witFeatB witFeatC = true :=
  Equal_ignores_field_values witFeatB witFeatC (by decide) rfl rfl rfl rfl

/-- C3: the shape check of `Equal` is asymmetric — with matching identifier
and Schema instance and distinct addresses, an absent shape on the left
makes the records equal no matter the right's shape, while a present left
shape makes equality hold exactly when it is shape-equal to the right's
(possibly absent) shape. -/
theorem Equal_shape_asymmetric (a b : OGRFeature)
    (haddr : a.addr ≠ b.addr) (hfid : a.nFID = b.nFID)
    (hdefn : a.poDefn = b.poDefn) :
    (a.poGeometry = none → a.Equal b = true) ∧
    (∀ g, a.poGeometry = some g →
      (a.Equal b = true ↔ g.Equal b.poGeometry = true)) := by
  constructor
  · intro hga
    simp [OGRFeature.Equal, haddr, hfid, hdefn, hga]
  · intro g hga
    simp [OGRFeature.Equal, haddr, hfid, hdefn, hga]

/-- Witness for C3: `witFeatA` has a shape and `witFeatB` has none, so with
equal identifiers and the same schema the comparison reduces to the shape
predicate against an absent shape (false); swapped, the absent left shape
makes them equal. -/
theorem Equal_shape_asymmetric_witness :
    OGRFeature.Equal witFeatB witFeatA = true ∧
    OGRFeature.Equal witFeatA witFeatB = false := by
  constructor
  · exact (Equal_shape_asymmetric witFeatB witFeatA (by decide) rfl rfl).1 rfl
  · have h := (Equal_shape_asymmetric witFeatA witFeatB (by decide) rfl
      rfl).2 ⟨9, 3⟩ rfl
    have hg : OGRGeometry.Equal ⟨9, 3⟩ witFeatB.poGeometry = false := by decide
    cases hE : OGRFeature.Equal witFeatA witFeatB with
    | false => rfl
    | true => rw [h.mp hE] at hg; exact Bool.noConfusion hg

/-- C4: records with different identifiers (and distinct addresses, so the
pointer short-circuit does not apply) are never equal, whatever the rest of
their state. -/
theorem Equal_false_of_fid_ne (a b : OGRFeature)
    (haddr : a.addr ≠ b.addr) (hfid : a.nFID ≠ b.nFID) :
    a.Equal b = false := by
  simp [OGRFeature.Equal, haddr, hfid]

/-- Witness for C4: identical records up to address and identifier compare
unequal. -/
theorem Equal_false_of_fid_ne_witness :
    OGRFeature.Equal witFeatB { witFeatB with addr := 3, nFID := 101 } = false :=
  Equal_false_of_fid_ne witFeatB { witFeatB with addr := 3, nFID := 101 }
    (by decide) (by decide)

/-- C9: `Clone` routes the source's geometry through the copying setter
`SetGeometry`, which dereferences its argument; on a record without a shape
the clone therefore crashes (modelled `none`) instead of producing a clone
with an absent shape. -/
theorem Clone_none_of_no_shape :
    (∀ (f : OGRFeature) (a r : Nat), f.poGeometry = none →
      f.Clone a r = none) ∧
    (∀ (f : OGRFeature) (r : Nat), f.SetGeometry none r = none) := by
  constructor
  · intro f a r hg
    simp [OGRFeature.Clone, hg, OGRFeature.SetGeometry]
  · intro f r
    rfl

/-- Witness for C9: cloning the shapeless `witFeatB` crashes. -/
theorem Clone_none_of_no_shape_witness :
    witFeatB.Clone 50 60 = none :=
  Clone_none_of_no_shape.1 witFeatB 50 60 rfl

/-- C8: reading a String-kind field whose owned string is null yields the
empty string (the model's return type is a total `String`, never a null
reference), both in general and immediately after construction. -/
theorem GetFieldAsString_unset_empty :
    (∀ (f : OGRFeature) (i : Nat) (fd : OGRFieldDefn) (slot : OGRField),
      f.poDefn.fieldDefns[i]? = some fd → fd.fieldType = .OFTString →
      f.pauFields[i]? = some slot → slot.String = none →
      f.GetFieldAsString i = "") ∧
    (∀ (a : Nat) (d : OGRFeatureDefn) (i : Nat) (fd : OGRFieldDefn),
      d.fieldDefns[i]? = some fd → fd.fieldType = .OFTString →
      (OGRFeature.new a d).GetFieldAsString i = "") := by
  constructor
  · intro f i fd slot hfd hft hs hnone
    rw [GetFieldAsString_eval f i fd slot hfd hs, hft, hnone]
  · intro a d i fd hfd hft
    have hi : i < d.fieldDefns.length := lt_of_getElem?_eq_some _ _ _ hfd
    have hs : (OGRFeature.new a d).pauFields[i]? = some ⟨0, 0, none⟩ := by
      simp [OGRFeature.new, List.getElem?_replicate_of_lt hi]
    have hfd' : (OGRFeature.new a d).poDefn.fieldDefns[i]? = some fd := hfd
    rw [GetFieldAsString_eval _ i fd _ hfd' hs, hft]

/-- Witness for C8: the unset string slot 0 of a fresh record on `witDefn`
reads as the empty string. -/
theorem GetFieldAsString_unset_empty_witness :
    (OGRFeature.new 4 witDefn).GetFieldAsString 0 = "" :=
  GetFieldAsString_unset_empty.2 4 witDefn 0 ⟨.OFTString⟩ rfl rfl

/-- C5: the cross-kind coercion table — an int set on a String-kind field
reads back as its decimal rendering "42"; the string "3.14" set on a
Real-kind field reads back as the value 3.14; a non-numeric string set on an
Integer-kind or Real-kind field reads back as 0 and 0.0 respectively. -/
theorem coercion_table :
    (∀ (f : OGRFeature) (i : Nat) (fd : OGRFieldDefn), f.WF →
      f.poDefn.fieldDefns[i]? = some fd → fd.fieldType = .OFTString →
      (f.SetFieldInteger i 42).GetFieldAsString i = "42") ∧
    (∀ (f : OGRFeature) (i : Nat) (fd : OGRFieldDefn), f.WF →
      f.poDefn.fieldDefns[i]? = some fd → fd.fieldType = .OFTReal →
      (f.SetFieldString i "3.14").GetFieldAsDouble i = (3.14 : ℚ)) ∧
    (∀ (f : OGRFeature) (i : Nat) (fd : OGRFieldDefn) (s : String), f.WF →
      f.poDefn.fieldDefns[i]? = some fd → fd.fieldType = .OFTInteger →
      isNonNumeric s = true →
      (f.SetFieldString i s).GetFieldAsInteger i = 0) ∧
    (∀ (f : OGRFeature) (i : Nat) (fd : OGRFieldDefn) (s : String), f.WF →
      f.poDefn.fieldDefns[i]? = some fd → fd.fieldType = .OFTReal →
      isNonNumeric s = true →
      (f.SetFieldString i s).GetFieldAsDouble i = 0) := by
  refine ⟨?_, ?_, ?_, ?_⟩
  · intro f i fd hwf hfd hft
    have hi : i < f.pauFields.length := by
      rw [hwf]
      exact lt_of_getElem?_eq_some _ _ _ hfd
    obtain ⟨slot, hs⟩ := getElem?_isSome_of_lt _ _ hi
    rw [SetFieldInteger_eval f i fd hfd 42, hft]
    show (f.withFields (setSlot f.pauFields i
      fun t => { t with String := some (sprintfD 42) })).GetFieldAsString i = "42"
    rw [GetFieldAsString_set f i fd _ slot hfd hs, hft]
    show sprintfD 42 = "42"
    decide
  · intro f i fd hwf hfd hft
    have hi : i < f.pauFields.length := by
      rw [hwf]
      exact lt_of_getElem?_eq_some _ _ _ hfd
    obtain ⟨slot, hs⟩ := getElem?_isSome_of_lt _ _ hi
    rw [SetFieldString_eval f i fd hfd "3.14", hft]
    show (f.withFields (setSlot f.pauFields i
      fun t => { t with Real := atof "3.14" })).GetFieldAsDouble i = (3.14 : ℚ)
    rw [GetFieldAsDouble_set f i fd _ slot hfd hs, hft]
    exact atof_314
  · intro f i fd s hwf hfd hft hnn
    have hi : i < f.pauFields.length := by
      rw [hwf]
      exact lt_of_getElem?_eq_some _ _ _ hfd
    obtain ⟨slot, hs⟩ := getElem?_isSome_of_lt _ _ hi
    rw [SetFieldString_eval f i fd hfd s, hft]
    show (f.withFields (setSlot f.pauFields i
      fun t => { t with Integer := atoi s })).GetFieldAsInteger i = 0
    rw [GetFieldAsInteger_set f i fd _ slot hfd hs, hft]
    exact atoi_eq_zero_of_nonNumeric s hnn
  · intro f i fd s hwf hfd hft hnn
    have hi : i < f.pauFields.length := by
      rw [hwf]
      exact lt_of_getElem?_eq_some _ _ _ hfd
    obtain ⟨slot, hs⟩ := getElem?_isSome_of_lt _ _ hi
    rw [SetFieldString_eval f i fd hfd s, hft]
    show (f.withFields (setSlot f.pauFields i
      fun t => { t with Real := atof s })).GetFieldAsDouble i = 0
    rw [GetFieldAsDouble_set f i fd _ slot hfd hs, hft]
    exact atof_eq_zero_of_nonNumeric s hnn

/-- Witness for C5: the coercion table at concrete fields of `witFeatB`. -/
theorem coercion_table_witness :
    (witFeatB.SetFieldInteger 0 42).GetFieldAsString 0 = "42" ∧
    (witFeatB.SetFieldString 2 "3.14").GetFieldAsDouble 2 = (3.14 : ℚ) ∧
    (witFeatB.SetFieldString 1 "abc").GetFieldAsInteger 1 = 0 ∧
    (witFeatB.SetFieldString 2 "abc").GetFieldAsDouble 2 = 0 :=
  ⟨coercion_table.1 witFeatB 0 ⟨.OFTString⟩ rfl rfl rfl,
    coercion_table.2.1 witFeatB 2 ⟨.OFTReal⟩ rfl rfl rfl,
    coercion_table.2.2.1 witFeatB 1 ⟨.OFTInteger⟩ "abc" rfl rfl rfl rfl,
    coercion_table.2.2.2 witFeatB 2 ⟨.OFTReal⟩ "abc" rfl rfl rfl rfl⟩

/-- C6: `GetFieldAsInteger` by the declared kind — Integer as stored, Real
truncated toward zero (floor when nonnegative, ceiling when negative),
String parsed by `atoi` with 0 for a null or non-numeric string, and 0 for
every other kind. -/
theorem GetFieldAsInteger_by_kind (f : OGRFeature) (i : Nat)
    (fd : OGRFieldDefn) (slot : OGRField)
    (hfd : f.poDefn.fieldDefns[i]? = some fd)
    (hs : f.pauFields[i]? = some slot) :
    (fd.fieldType = .OFTInteger → f.GetFieldAsInteger i = slot.Integer) ∧
    (fd.fieldType = .OFTReal → f.GetFieldAsInteger i =
      if 0 ≤ slot.Real then ⌊slot.Real⌋ else ⌈slot.Real⌉) ∧
    (fd.fieldType = .OFTString → slot.String = none →
      f.GetFieldAsInteger i = 0) ∧
    (fd.fieldType = .OFTString → ∀ s, slot.String = some s →
      f.GetFieldAsInteger i = atoi s ∧
      (isNonNumeric s = true → f.GetFieldAsInteger i = 0)) ∧
    (fd.fieldType = .OFTOther → f.GetFieldAsInteger i = 0) := by
  rw [GetFieldAsInteger_eval f i fd slot hfd hs]
  refine ⟨?_, ?_, ?_, ?_, ?_⟩
  · intro hft
    rw [hft]
  · intro hft
    rw [hft]
    rfl
  · intro hft hnone
    rw [hft, hnone]
  · intro hft s hsome
    rw [hft, hsome]
    exact ⟨rfl, fun hnn => atoi_eq_zero_of_nonNumeric s hnn⟩
  · intro hft
    rw [hft]

/-- Witness for C6: the Real-kind slot of `witFeatA` (value 25/2) and the
Integer-kind slot (value 5) read through `GetFieldAsInteger`. -/
theorem GetFieldAsInteger_by_kind_witness :
    witFeatA.GetFieldAsInteger 1 = (5 : Int) ∧
    witFeatA.GetFieldAsInteger 2 =
      (if (0 : ℚ) ≤ 25 / 2 then ⌊(25 / 2 : ℚ)⌋ else ⌈(25 / 2 : ℚ)⌉) :=
  ⟨(GetFieldAsInteger_by_kind witFeatA 1 ⟨.OFTInteger⟩ ⟨5, 0, none⟩ rfl
      rfl).1 rfl,
    (GetFieldAsInteger_by_kind witFeatA 2 ⟨.OFTReal⟩ ⟨0, 25 / 2, none⟩ rfl
      rfl).2.1 rfl⟩

/-- C7: the native-kind round trip — on a field of declared kind K in
{Integer, Real, String}, the matching setter followed by the matching getter
returns the value that was set. -/
theorem native_roundtrip (f : OGRFeature) (i : Nat) (fd : OGRFieldDefn)
    (hwf : f.WF) (hfd : f.poDefn.fieldDefns[i]? = some fd) :
    (fd.fieldType = .OFTInteger → ∀ n : Int,
      (f.SetFieldInteger i n).GetFieldAsInteger i = n) ∧
    (fd.fieldType = .OFTReal → ∀ q : ℚ,
      (f.SetFieldDouble i q).GetFieldAsDouble i = q) ∧
    (fd.fieldType = .OFTString → ∀ s : String,
      (f.SetFieldString i s).GetFieldAsString i = s) := by
  have hi : i < f.pauFields.length := by
    rw [hwf]
    exact lt_of_getElem?_eq_some _ _ _ hfd
  obtain ⟨slot, hs⟩ := getElem?_isSome_of_lt _ _ hi
  refine ⟨?_, ?_, ?_⟩
  · intro hft n
    rw [SetFieldInteger_eval f i fd hfd n, hft]
    show (f.withFields (setSlot f.pauFields i
      fun t => { t with Integer := n })).GetFieldAsInteger i = n
    rw [GetFieldAsInteger_set f i fd _ slot hfd hs, hft]
  · intro hft q
    rw [SetFieldDouble_eval f i fd hfd q, hft]
    show (f.withFields (setSlot f.pauFields i
      fun t => { t with Real := q })).GetFieldAsDouble i = q
    rw [GetFieldAsDouble_set f i fd _ slot hfd hs, hft]
  · intro hft s
    rw [SetFieldString_eval f i fd hfd s, hft]
    show (f.withFields (setSlot f.pauFields i
      fun t => { t with String := some s })).GetFieldAsString i = s
    rw [GetFieldAsString_set f i fd _ slot hfd hs, hft]

/-- Witness for C7: round trips on the three typed fields of `witFeatB`. -/
theorem native_roundtrip_witness :
    (witFeatB.SetFieldInteger 1 (-7)).GetFieldAsInteger 1 = -7 ∧
    (witFeatB.SetFieldDouble 2 (5 / 4)).GetFieldAsDouble 2 = 5 / 4 ∧
    (witFeatB.SetFieldString 0 "riverbed").GetFieldAsString 0 = "riverbed" :=
  ⟨(native_roundtrip witFeatB 1 ⟨.OFTInteger⟩ rfl rfl).1 rfl (-7),
    (native_roundtrip witFeatB 2 ⟨.OFTReal⟩ rfl rfl).2.1 rfl (5 / 4),
    (native_roundtrip witFeatB 0 ⟨.OFTString⟩ rfl rfl).2.2 rfl "riverbed"⟩

/-- All components of a record other than field slot `i` are preserved:
address, schema binding, identifier, geometry, and every other slot. -/
def FramePreserved (f g : OGRFeature) (i : Nat) : Prop :=
  g.addr = f.addr ∧ g.poDefn = f.poDefn ∧ g.nFID = f.nFID ∧
  g.poGeometry = f.poGeometry ∧
  ∀ j, j ≠ i → g.pauFields[j]? = f.pauFields[j]?

/-- C10: every `SetField` overload on a valid index `i` mutates at most the
slot at `i` — identifier, shape, schema binding, address and every other
slot are unchanged — and on a field whose declared kind is outside
{Integer, Real, String} it changes nothing at all. -/
theorem SetField_frame (f : OGRFeature) (i : Nat)
    (_hi : i < f.poDefn.fieldDefns.length)
    (n : Int) (q : ℚ) (s : String) (u : OGRField) :
    FramePreserved f (f.SetFieldInteger i n) i ∧
    FramePreserved f (f.SetFieldDouble i q) i ∧
    FramePreserved f (f.SetFieldString i s) i ∧
    FramePreserved f (f.SetFieldRaw i u) i ∧
    (∀ fd, f.poDefn.fieldDefns[i]? = some fd → fd.fieldType = .OFTOther →
      f.SetFieldInteger i n = f ∧ f.SetFieldDouble i q = f ∧
      f.SetFieldString i s = f ∧ f.SetFieldRaw i u = f) := by
  refine ⟨?_, ?_, ?_, ?_, ?_⟩
  · obtain ⟨h1, h2, h3, h4⟩ := SetFieldInteger_comp f i n
    exact ⟨h1, h2, h3, h4, fun j hj => SetFieldInteger_getElem?_ne f i j n hj⟩
  · obtain ⟨h1, h2, h3, h4⟩ := SetFieldDouble_comp f i q
    exact ⟨h1, h2, h3, h4, fun j hj => SetFieldDouble_getElem?_ne f i j q hj⟩
  · obtain ⟨h1, h2, h3, h4⟩ := SetFieldString_comp f i s
    exact ⟨h1, h2, h3, h4, fun j hj => SetFieldString_getElem?_ne f i j s hj⟩
  · obtain ⟨h1, h2, h3, h4, _⟩ := SetFieldRaw_comp f i u
    exact ⟨h1, h2, h3, h4, fun j hj => SetFieldRaw_getElem?_ne f i j u hj⟩
  · intro fd hfd hft
    refine ⟨?_, ?_, ?_, ?_⟩
    · rw [SetFieldInteger_eval f i fd hfd n, hft]
    · rw [SetFieldDouble_eval f i fd hfd q, hft]
    · rw [SetFieldString_eval f i fd hfd s, hft]
    · rw [SetFieldRaw_eval f i fd hfd u, hft]

/-- Witness for C10: frame preservation of the four setters at slot 1 of
`witFeatA`, and the no-op on its `OFTOther` slot 3. -/
theorem SetField_frame_witness :
    (witFeatA.SetFieldInteger 1 9).pauFields[0]? = witFeatA.pauFields[0]? ∧
    (witFeatA.SetFieldString 1 "x").poGeometry = witFeatA.poGeometry ∧
    witFeatA.SetFieldDouble 3 (1 / 2) = witFeatA := by
  have h := SetField_frame witFeatA 1 (by decide) 9 (1 / 2) "x" ⟨1, 1, none⟩
  have h3 := SetField_frame witFeatA 3 (by decide) 9 (1 / 2) "x" ⟨1, 1, none⟩
  exact ⟨h.1.2.2.2.2 0 (by decide), h.2.2.1.2.2.2.1,
    (h3.2.2.2.2 ⟨.OFTOther⟩ rfl rfl).2.1⟩

/-- C1: cloning a record whose shape is present yields a new record (fresh
address) bound to the same Schema instance, with every field value equal to
the source's (for the field's declared kind), a shape equal in content but
not identical to the source's shape, and the identifier reset to the null
sentinel whatever the source's identifier was. -/
theorem Clone_spec (f : OGRFeature) (g : OGRGeometry) (a r : Nat)
    (hwf : f.WF) (hg : f.poGeometry = some g) (haddr : a ≠ f.addr)
    (href : r ≠ g.ref) :
    ∃ c, f.Clone a r = some c ∧
      c.addr = a ∧ c.addr ≠ f.addr ∧
      c.poDefn = f.poDefn ∧
      c.nFID = OGRNullFID ∧
      (∃ cg, c.poGeometry = some cg ∧ cg.gval = g.gval ∧ cg.ref ≠ g.ref) ∧
      (∀ (i : Nat) (fd : OGRFieldDefn), f.poDefn.fieldDefns[i]? = some fd →
        ∃ s t : OGRField, c.pauFields[i]? = some s ∧
          f.pauFields[i]? = some t ∧ slotValueEq fd s t = true) := by
  have hclone : f.Clone a r = some
      (OGRFeature.copyFieldsFrom
        { OGRFeature.new a f.poDefn with poGeometry := some (g.clone r) }
        f f.poDefn.fieldDefns.length) := by
    unfold OGRFeature.Clone
    rw [hg]
    rfl
  have hcomp := copyFieldsFrom_comp
    { OGRFeature.new a f.poDefn with poGeometry := some (g.clone r) } f
    f.poDefn.fieldDefns.length
  refine ⟨_, hclone, hcomp.1.trans rfl, ?_, hcomp.2.1.trans rfl,
    hcomp.2.2.1.trans rfl, ?_, ?_⟩
  · rw [hcomp.1.trans rfl]
    exact haddr
  · refine ⟨⟨r, g.gval⟩, hcomp.2.2.2.1.trans rfl, rfl, href⟩
  · intro i fd hfd
    have hid : i < f.poDefn.fieldDefns.length :=
      lt_of_getElem?_eq_some _ _ _ hfd
    have hif : i < f.pauFields.length := by
      rw [hwf]
      exact hid
    obtain ⟨t, ht⟩ := getElem?_isSome_of_lt f.pauFields i hif
    have hlen : ({ OGRFeature.new a f.poDefn with
        poGeometry := some (g.clone r) } : OGRFeature).pauFields.length =
        f.poDefn.fieldDefns.length := by
      show (List.replicate f.poDefn.fieldDefns.length
        (⟨0, 0, none⟩ : OGRField)).length = _
      rw [List.length_replicate]
    obtain ⟨s, hsc, hveq⟩ := copyFieldsFrom_slot_lt
      { OGRFeature.new a f.poDefn with poGeometry := some (g.clone r) } f
      f.poDefn.fieldDefns.length rfl i hid (by rw [hlen]; exact hid) fd hfd t ht
    exact ⟨s, t, hsc, ht, hveq⟩

/-- Witness for C1: cloning `witFeatA` (identifier 100, shape ⟨9,3⟩) at
fresh addresses 50 and 60. -/
theorem Clone_spec_witness :
    ∃ c, witFeatA.Clone 50 60 = some c ∧
      c.addr = 50 ∧ c.addr ≠ witFeatA.addr ∧
      c.poDefn = witFeatA.poDefn ∧
      c.nFID = OGRNullFID ∧
      (∃ cg, c.poGeometry = some cg ∧ cg.gval = (⟨9, 3⟩ : OGRGeometry).gval ∧
        cg.ref ≠ (⟨9, 3⟩ : OGRGeometry).ref) ∧
      (∀ (i : Nat) (fd : OGRFieldDefn),
        witFeatA.poDefn.fieldDefns[i]? = some fd →
        ∃ s t : OGRField, c.pauFields[i]? = some s ∧
          witFeatA.pauFields[i]? = some t ∧ slotValueEq fd s t = true) :=
  Clone_spec witFeatA ⟨9, 3⟩ 50 60 rfl rfl (by decide) (by decide)

end GDAL
